import Mathlib

/-!
Verification of the `EinsteinFinalTorsional` metric-model unit
(src/legacy/.../quantum_predefined/..._Einstein_Final_Torsional,_α_+0_00/code.py).

The Python source is:

  class EinsteinFinalTorsional(EinsteinFinalBase):
      sweep = None
      cacheable = True
      def __init__(self, alpha: float):
          super().__init__(f"Einstein Final (Torsional, α=\x7balpha:+.2f\x7d)")
          self.alpha = torch.as_tensor(alpha, device=device, dtype=DTYPE)
      def get_metric(self, r, M_param, C_param, G_param):
          rs = 2 * G_param * M_param / C_param**2
          m = 1 - rs/r + self.alpha * (rs/r)**4
          return -m, 1/(m + EPSILON), r**2, torch.zeros_like(r)

We embed this unit at three levels of fidelity, all translated from the
source line by line:

* a scalar model over exact rationals (`EinsteinFinalTorsional.get_metric`),
  for the algebraic claims, with the external constant `EPSILON` passed as an
  explicit rational parameter (it is defined outside the given fragment; the
  spec only says it is a small positive constant);
* a 1-D tensor model over lists of rationals with torch-style broadcasting
  (`EinsteinFinalTorsional.get_metricT`), for the shape claims;
* a scalar model over IEEE-style extended values (NaN, signed infinities,
  finite rationals) (`get_metricE`), for the division-by-zero claim: torch
  division by zero does not raise, it produces non-finite values.

The constructor's f-string format `+.2f` is modelled by `fmtSigned2`:
Python renders the sign of the value explicitly and rounds the magnitude
to two decimal digits with round-half-to-even.
-/

/-- Round-half-to-even of a rational to an integer (the rounding Python's
fixed-point float formatting performs on the exact value). -/
def rne (q : ℚ) : ℤ :=
  let f := Int.floor q
  let frac := q - f
  if frac < 1/2 then f
  else if 1/2 < frac then f + 1
  else if f % 2 = 0 then f else f + 1

/-- The two decimal digits of `n % 100`, as a 2-character string (the
fractional part printed by `%.2f`, always exactly two digits). -/
def twoDigits (n : ℕ) : String :=
  String.mk [Nat.digitChar (n / 10), Nat.digitChar (n % 10)]

/-- Model of Python's format specifier `+.2f` applied to the exact rational
value of a float: explicit sign taken from the value, magnitude rounded
half-to-even to two decimal places. -/
def fmtSigned2 (a : ℚ) : String :=
  let n := (rne (|a| * 100)).toNat
  let sgn := if a < 0 then "-" else "+"
  sgn ++ Nat.repr (n / 100) ++ "." ++ twoDigits (n % 100)

/-- Instance state of the Python class: the tunable parameter `alpha`
(stored by `__init__` as a 0-d tensor; here its exact rational value) and
the display name string passed to the base class. -/
structure EinsteinFinalTorsional where
  alpha : ℚ
  name : String
deriving DecidableEq

/-- The class attribute `sweep = None`. -/
def EinsteinFinalTorsional.sweep : Option Unit := none

/-- The class attribute `cacheable = True`. -/
def EinsteinFinalTorsional.cacheable : Bool := true

/-- The constructor `__init__(alpha)`: builds the display name with the f-string
`"Einstein Final (Torsional, α=\x7balpha:+.2f\x7d)"` and stores `alpha`. -/
def EinsteinFinalTorsional.init (alpha : ℚ) : EinsteinFinalTorsional :=
  { alpha := alpha
    name := "Einstein Final (Torsional, α=" ++ fmtSigned2 alpha ++ ")" }

/-- Method `get_metric` at scalar inputs, over exact rationals (division is the
total rational division; claims that need nonzero denominators carry those
hypotheses). `EPSILON` is the external numerical-stability constant. -/
def EinsteinFinalTorsional.get_metric (self : EinsteinFinalTorsional)
    (EPSILON r M_param C_param G_param : ℚ) : ℚ × ℚ × ℚ × ℚ :=
  let rs := 2 * G_param * M_param / C_param ^ 2
  let m := 1 - rs / r + self.alpha * (rs / r) ^ 4
  (-m, 1 / (m + EPSILON), r ^ 2, 0)

/-- A call to the method `get_metric` as a state transformer on the
instance: the Python body assigns to no attribute of `self`, so the
post-state is the pre-state and the value is the returned 4-tuple. -/
def EinsteinFinalTorsional.get_metric_call (self : EinsteinFinalTorsional)
    (EPSILON r M_param C_param G_param : ℚ) :
    EinsteinFinalTorsional × (ℚ × ℚ × ℚ × ℚ) :=
  (self, self.get_metric EPSILON r M_param C_param G_param)

/-- Torch-style broadcasting of two 1-D tensors: equal lengths stay as
they are, a length-1 tensor is stretched to the other's length, any other
pair of lengths is a shape error. -/
def bcast (a b : List ℚ) : Option (List ℚ × List ℚ) :=
  if a.length = b.length then some (a, b)
  else if a.length = 1 then some (List.replicate b.length a.headI, b)
  else if b.length = 1 then some (a, List.replicate a.length b.headI)
  else none

/-- Elementwise binary operation on 1-D tensors with broadcasting. -/
def ebin (f : ℚ → ℚ → ℚ) (a b : List ℚ) : Option (List ℚ) :=
  (bcast a b).map fun p => List.zipWith f p.1 p.2

/-- Method `get_metric` over 1-D tensors with broadcasting, following the source
expression by expression: `rs = 2 * G_param * M_param / C_param**2` (a
Python scalar such as `2` broadcasts elementwise, as does the 0-d tensor
`self.alpha`), `m = 1 - rs/r + self.alpha * (rs/r)**4` (all elementwise on
`rs/r`), and the returned tuple `(-m, 1/(m + EPSILON), r**2,
torch.zeros_like(r))`. A broadcasting shape error (which torch raises) is
`none`. -/
def EinsteinFinalTorsional.get_metricT (self : EinsteinFinalTorsional)
    (EPSILON : ℚ) (r M_param C_param G_param : List ℚ) :
    Option (List ℚ × List ℚ × List ℚ × List ℚ) := do
  let twoGM ← ebin (fun x y => x * y) (G_param.map fun g => 2 * g) M_param
  let rs ← ebin (fun x y => x / y) twoGM (C_param.map fun c => c ^ 2)
  let x ← ebin (fun x y => x / y) rs r
  let m := x.map fun t => 1 - t + self.alpha * t ^ 4
  some (m.map fun t => -t,
        m.map fun t => 1 / (t + EPSILON),
        r.map fun t => t ^ 2,
        List.replicate r.length 0)

/-- IEEE-style extended values of the numeric backend: NaN, infinities
(`neg = true` for `-∞`), and finite values (exact; rounding of finite
arithmetic is not modelled). -/
inductive ExtF where
  | nan : ExtF
  | inf : Bool → ExtF
  | fin : ℚ → ExtF
deriving DecidableEq

/-- IEEE negation. -/
def ExtF.neg : ExtF → ExtF
  | nan => nan
  | inf s => inf (!s)
  | fin q => fin (-q)

/-- IEEE addition: NaN propagates, opposite infinities give NaN. -/
def ExtF.add : ExtF → ExtF → ExtF
  | nan, _ => nan
  | _, nan => nan
  | inf s, inf t => if s = t then inf s else nan
  | inf s, fin _ => inf s
  | fin _, inf t => inf t
  | fin a, fin b => fin (a + b)

/-- IEEE subtraction. -/
def ExtF.sub (a b : ExtF) : ExtF := a.add b.neg

/-- IEEE multiplication: NaN propagates, `0 * ∞ = NaN`, signs multiply. -/
def ExtF.mul : ExtF → ExtF → ExtF
  | nan, _ => nan
  | _, nan => nan
  | inf s, inf t => inf (xor s t)
  | inf s, fin q => if q = 0 then nan else inf (xor s (decide (q < 0)))
  | fin q, inf t => if q = 0 then nan else inf (xor (decide (q < 0)) t)
  | fin a, fin b => fin (a * b)

/-- IEEE division: NaN propagates, `∞/∞ = NaN`, `0/0 = NaN`, a nonzero
finite value divided by zero is a signed infinity (not an error), and a
finite value divided by infinity is zero. -/
def ExtF.div : ExtF → ExtF → ExtF
  | nan, _ => nan
  | _, nan => nan
  | inf _, inf _ => nan
  | inf s, fin q => inf (xor s (decide (q < 0)))
  | fin _, inf _ => fin 0
  | fin a, fin b =>
      if b = 0 then (if a = 0 then nan else inf (decide (a < 0)))
      else fin (a / b)

/-- Natural-number power by repeated multiplication (`x**2`, `x**4`). -/
def ExtF.pow (x : ExtF) : ℕ → ExtF
  | 0 => fin 1
  | n + 1 => (x.pow n).mul x

/-- Whether an extended value is finite (neither NaN nor an infinity). -/
def ExtF.isFinite : ExtF → Bool
  | fin _ => true
  | _ => false

/-- Method `get_metric` at scalar inputs under the IEEE-extended value semantics
of the backend (`alpha` is the stored 0-d tensor's value): the same
expressions as the source, with total IEEE arithmetic, so division by zero
yields infinities or NaN in the result rather than an error. -/
def get_metricE (alpha EPSILON r M_param C_param G_param : ExtF) :
    ExtF × ExtF × ExtF × ExtF :=
  let rs := (((ExtF.fin 2).mul G_param).mul M_param).div (C_param.pow 2)
  let x := rs.div r
  let m := ((ExtF.fin 1).sub x).add (alpha.mul (x.pow 4))
  (m.neg, (ExtF.fin 1).div (m.add EPSILON), r.pow 2, ExtF.fin 0)

/-! ## Helper lemmas -/

/-- Zipping with a constant left tensor of matching length is a map. -/
theorem zipWith_replicate_left (f : ℚ → ℚ → ℚ) (x : ℚ) (b : List ℚ) :
    List.zipWith f (List.replicate b.length x) b = b.map (f x) := by
  induction b with
  | nil => rfl
  | cons y t ih => simp [List.replicate, ih]

/-- Broadcasting a length-1 tensor against any tensor maps its element. -/
theorem ebin_one_left (f : ℚ → ℚ → ℚ) (x : ℚ) (b : List ℚ) :
    ebin f [x] b = some (b.map (f x)) := by
  rcases b with _ | ⟨y, _ | ⟨z, t⟩⟩
  · simp [ebin, bcast]
  · simp [ebin, bcast]
  · have h := zipWith_replicate_left f x t
    simp [ebin, bcast, List.replicate_succ, h]

/-- A decimal digit character is a digit. -/
theorem digitChar_isDigit (d : ℕ) (h : d < 10) : (Nat.digitChar d).isDigit = true := by
  interval_cases d <;> rfl

/-- Evaluation of the name formatter at `alpha = 0`. -/
theorem fmtSigned2_zero : fmtSigned2 0 = "+0.00" := by
  norm_num [fmtSigned2, rne, twoDigits]
  rfl

/-- The length of a broadcast elementwise result: the lengths were equal,
or one operand had length 1 and the result has the other's length. -/
theorem ebin_length (f : ℚ → ℚ → ℚ) (a b l : List ℚ) (h : ebin f a b = some l) :
    (a.length = b.length ∧ l.length = a.length) ∨
    (a.length = 1 ∧ l.length = b.length) ∨
    (b.length = 1 ∧ l.length = a.length) := by
  unfold ebin bcast at h
  split_ifs at h with h1 h2 h3
  · simp only [Option.map_some', Option.some.injEq] at h
    left
    refine ⟨h1, ?_⟩
    rw [← h]
    simp [List.length_zipWith, h1]
  · simp only [Option.map_some', Option.some.injEq] at h
    right; left
    refine ⟨h2, ?_⟩
    rw [← h]
    simp [List.length_zipWith]
  · simp only [Option.map_some', Option.some.injEq] at h
    right; right
    refine ⟨h3, ?_⟩
    rw [← h]
    simp [List.length_zipWith]
  · simp at h

/-- Inversion of a successful `get_metricT` call: names the intermediate
broadcast results and the shape of the returned tuple. -/
theorem get_metricT_inv (self : EinsteinFinalTorsional) (EPSILON : ℚ)
    (r M_param C_param G_param : List ℚ)
    (out : List ℚ × List ℚ × List ℚ × List ℚ)
    (h : self.get_metricT EPSILON r M_param C_param G_param = some out) :
    ∃ twoGM rs x,
      ebin (fun x y => x * y) (G_param.map fun g => 2 * g) M_param = some twoGM ∧
      ebin (fun x y => x / y) twoGM (C_param.map fun c => c ^ 2) = some rs ∧
      ebin (fun x y => x / y) rs r = some x ∧
      out = ((x.map fun t => 1 - t + self.alpha * t ^ 4).map fun t => -t,
             (x.map fun t => 1 - t + self.alpha * t ^ 4).map fun t => 1 / (t + EPSILON),
             r.map fun t => t ^ 2,
             List.replicate r.length 0) := by
  simp only [EinsteinFinalTorsional.get_metricT, bind, Option.bind_eq_some,
    Option.some.injEq] at h
  obtain ⟨twoGM, h1, rs, h2, x, h3, hout⟩ := h
  exact ⟨twoGM, rs, x, h1, h2, h3, hout.symm⟩

/-- Division of any extended value by exact zero is never finite. -/
theorem div_fin_zero_not_finite (y : ExtF) : (y.div (ExtF.fin 0)).isFinite = false := by
  cases y <;> simp only [ExtF.div, ExtF.isFinite] <;> split_ifs <;> simp [ExtF.isFinite]

/-- The fourth IEEE power of an infinity is `+∞`. -/
theorem inf_pow_four (s : Bool) : (ExtF.inf s).pow 4 = ExtF.inf false := by
  simp [ExtF.pow, ExtF.mul]

/-- If `x` is non-finite (NaN or `±∞`), then
`-(1 - x + alpha * x^4)` is non-finite as well. -/
theorem m_of_nonfinite (a : ℚ) (x : ExtF) (hx : x.isFinite = false) :
    ((((ExtF.fin 1).sub x).add ((ExtF.fin a).mul (x.pow 4))).neg).isFinite = false := by
  cases x with
  | fin q => simp [ExtF.isFinite] at hx
  | nan => simp [ExtF.sub, ExtF.neg, ExtF.add, ExtF.mul, ExtF.pow, ExtF.isFinite]
  | inf s =>
      rw [inf_pow_four]
      rcases eq_or_ne a 0 with ha | ha
      · simp [ha, ExtF.sub, ExtF.neg, ExtF.add, ExtF.mul, ExtF.isFinite]
      · simp only [ExtF.sub, ExtF.neg, ExtF.add, ExtF.mul, if_neg ha]
        split_ifs <;> simp [ExtF.isFinite, ExtF.neg]

/-! ## Claims -/

/-- C1: for every nonzero radial array `r` and scalar parameters with
`C_param ≠ 0`, `get_metric` returns exactly
`(-m, 1/(m + EPSILON), r^2, zeros shaped like r)` elementwise, with
`rs = 2*G_param*M_param/C_param^2` and `m = 1 - rs/r + alpha*(rs/r)^4`. -/
theorem C1_get_metric_components (self : EinsteinFinalTorsional)
    (EPSILON : ℚ) (r : List ℚ) (M_param C_param G_param : ℚ)
    (hr : ∀ x ∈ r, x ≠ 0) (hC : C_param ≠ 0) :
    self.get_metricT EPSILON r [M_param] [C_param] [G_param] =
      some (r.map fun t => -(1 - (2 * G_param * M_param / C_param ^ 2) / t
              + self.alpha * ((2 * G_param * M_param / C_param ^ 2) / t) ^ 4),
            r.map fun t => 1 / ((1 - (2 * G_param * M_param / C_param ^ 2) / t
              + self.alpha * ((2 * G_param * M_param / C_param ^ 2) / t) ^ 4) + EPSILON),
            r.map fun t => t ^ 2,
            List.replicate r.length 0) := by
  simp [EinsteinFinalTorsional.get_metricT, ebin_one_left, List.map_map, Function.comp]

/-- Witness for C1 at `alpha = 1/2`, `r = [4]`, `M = C = G = 1`. -/
theorem C1_get_metric_components_witness :
    (∀ x ∈ ([4] : List ℚ), x ≠ 0) ∧ ((1 : ℚ) ≠ 0) ∧
    ({ alpha := 1/2, name := "w" } :
        EinsteinFinalTorsional).get_metricT (1/1000000) [4] [1] [1] [1] =
      some (([4] : List ℚ).map fun t => -(1 - (2 * 1 * 1 / (1 : ℚ) ^ 2) / t
              + (1/2 : ℚ) * ((2 * 1 * 1 / (1 : ℚ) ^ 2) / t) ^ 4),
            ([4] : List ℚ).map fun t => 1 / ((1 - (2 * 1 * 1 / (1 : ℚ) ^ 2) / t
              + (1/2 : ℚ) * ((2 * 1 * 1 / (1 : ℚ) ^ 2) / t) ^ 4) + 1/1000000),
            ([4] : List ℚ).map fun t => t ^ 2,
            List.replicate ([4] : List ℚ).length 0) :=
  ⟨by norm_num, by norm_num,
    C1_get_metric_components { alpha := 1/2, name := "w" } (1/1000000) [4] 1 1 1
      (by norm_num) (by norm_num)⟩

/-- C2: for every `alpha`, the stored display name is
`"Einstein Final (Torsional, α="` followed by `alpha` rendered with an
explicit sign, an integer part, a dot and exactly two decimal digits,
followed by `")"`; at `alpha = 0` it is
`"Einstein Final (Torsional, α=+0.00)"`. -/
theorem C2_display_name (alpha : ℚ) :
    (EinsteinFinalTorsional.init alpha).name
        = "Einstein Final (Torsional, α=" ++ fmtSigned2 alpha ++ ")" ∧
    (∃ sgn ip d1 d2,
        fmtSigned2 alpha = sgn ++ Nat.repr ip ++ "." ++ String.mk [d1, d2]
        ∧ (sgn = "+" ∨ sgn = "-") ∧ d1.isDigit = true ∧ d2.isDigit = true) ∧
    (EinsteinFinalTorsional.init 0).name
        = "Einstein Final (Torsional, α=+0.00)" := by
  refine ⟨rfl, ?_, ?_⟩
  · refine ⟨if alpha < 0 then "-" else "+",
      (rne (|alpha| * 100)).toNat / 100,
      Nat.digitChar ((rne (|alpha| * 100)).toNat % 100 / 10),
      Nat.digitChar ((rne (|alpha| * 100)).toNat % 100 % 10),
      rfl, ?_, ?_, ?_⟩
    · rcases lt_or_ge alpha 0 with h | h
      · exact Or.inr (if_pos h)
      · exact Or.inl (if_neg (not_lt.mpr h))
    · exact digitChar_isDigit _ (by omega)
    · exact digitChar_isDigit _ (by omega)
  · show "Einstein Final (Torsional, α=" ++ fmtSigned2 0 ++ ")" = _
    rw [fmtSigned2_zero]
    rfl

/-- C3: with `alpha = 0` the time-time component reduces exactly to the
Schwarzschild value `-(1 - rs/r)`, `rs = 2*G*M/C^2`, for every nonzero `r`
and parameters with `C_param ≠ 0`. -/
theorem C3_alpha_zero_schwarzschild (EPSILON r M_param C_param G_param : ℚ)
    (hr : r ≠ 0) (hC : C_param ≠ 0) :
    ((EinsteinFinalTorsional.init 0).get_metric EPSILON r M_param C_param G_param).1
      = -(1 - (2 * G_param * M_param / C_param ^ 2) / r) := by
  simp [EinsteinFinalTorsional.get_metric, EinsteinFinalTorsional.init]

/-- Witness for C3 at `r = 4`, `M = C = G = 1`. -/
theorem C3_alpha_zero_schwarzschild_witness :
    (4 : ℚ) ≠ 0 ∧ (1 : ℚ) ≠ 0 ∧
    ((EinsteinFinalTorsional.init 0).get_metric (1/1000000) 4 1 1 1).1
      = -(1 - (2 * 1 * 1 / (1 : ℚ) ^ 2) / 4) :=
  ⟨by norm_num, by norm_num,
    C3_alpha_zero_schwarzschild (1/1000000) 4 1 1 1 (by norm_num) (by norm_num)⟩

/-- C5: `get_metric` is deterministic — two calls with identical inputs
(the second on the post-state of the first) return identical outputs. -/
theorem C5_deterministic (self : EinsteinFinalTorsional)
    (EPSILON r M_param C_param G_param : ℚ) :
    self.get_metric EPSILON r M_param C_param G_param
      = self.get_metric EPSILON r M_param C_param G_param ∧
    ((self.get_metric_call EPSILON r M_param C_param G_param).1.get_metric_call
        EPSILON r M_param C_param G_param).2
      = (self.get_metric_call EPSILON r M_param C_param G_param).2 :=
  ⟨rfl, rfl⟩

/-- C6: a call to `get_metric` leaves the instance state — the fields
`alpha` and `name` — unchanged, and the class attributes `sweep` and
`cacheable` are the constants `None` and `True`. -/
theorem C6_no_mutation (self : EinsteinFinalTorsional)
    (EPSILON r M_param C_param G_param : ℚ) :
    (self.get_metric_call EPSILON r M_param C_param G_param).1 = self ∧
    (self.get_metric_call EPSILON r M_param C_param G_param).1.alpha = self.alpha ∧
    (self.get_metric_call EPSILON r M_param C_param G_param).1.name = self.name ∧
    EinsteinFinalTorsional.sweep = none ∧
    EinsteinFinalTorsional.cacheable = true :=
  ⟨rfl, rfl, rfl, rfl, rfl⟩

/-- C8: in exact arithmetic, whenever `m + EPSILON ≠ 0`, the first two
outputs satisfy `component0 + 1/component1 = EPSILON`. -/
theorem C8_epsilon_relation (self : EinsteinFinalTorsional)
    (EPSILON r M_param C_param G_param : ℚ)
    (h : 1 - (2 * G_param * M_param / C_param ^ 2) / r
          + self.alpha * ((2 * G_param * M_param / C_param ^ 2) / r) ^ 4
          + EPSILON ≠ 0) :
    (self.get_metric EPSILON r M_param C_param G_param).1
      + 1 / (self.get_metric EPSILON r M_param C_param G_param).2.1
      = EPSILON := by
  simp only [EinsteinFinalTorsional.get_metric, one_div_one_div]
  ring

/-- Witness for C8 at `alpha = 1/2`, `r = 4`, `M = C = G = 1`,
`EPSILON = 1/1000000`, where `m + EPSILON = 0.53125 + 1e-6 ≠ 0`. -/
theorem C8_epsilon_relation_witness :
    (1 - (2 * 1 * 1 / (1 : ℚ) ^ 2) / 4
        + (1/2 : ℚ) * ((2 * 1 * 1 / (1 : ℚ) ^ 2) / 4) ^ 4 + 1/1000000 ≠ 0) ∧
    (({ alpha := 1/2, name := "w" } :
        EinsteinFinalTorsional).get_metric (1/1000000) 4 1 1 1).1
      + 1 / (({ alpha := 1/2, name := "w" } :
        EinsteinFinalTorsional).get_metric (1/1000000) 4 1 1 1).2.1
      = 1/1000000 :=
  ⟨by norm_num,
    C8_epsilon_relation { alpha := 1/2, name := "w" } (1/1000000) 4 1 1 1
      (by norm_num)⟩

/-- C9: the output depends on the three parameters only through
`rs = 2*G*M/C^2`: two parameter triples with equal `rs` (and nonzero `C`)
give identical outputs. -/
theorem C9_depends_only_on_rs (self : EinsteinFinalTorsional)
    (EPSILON r M_param C_param G_param M2 C2 G2 : ℚ)
    (hC : C_param ≠ 0) (hC2 : C2 ≠ 0)
    (h : 2 * G_param * M_param / C_param ^ 2 = 2 * G2 * M2 / C2 ^ 2) :
    self.get_metric EPSILON r M_param C_param G_param
      = self.get_metric EPSILON r M2 C2 G2 := by
  simp only [EinsteinFinalTorsional.get_metric]
  rw [h]

/-- Witness for C9: negating `C_param` (here `(1,1,1)` versus `(1,-1,1)`)
leaves the output unchanged. -/
theorem C9_depends_only_on_rs_witness :
    ((1 : ℚ) ≠ 0) ∧ ((-1 : ℚ) ≠ 0) ∧
    (2 * 1 * 1 / (1 : ℚ) ^ 2 = 2 * 1 * 1 / (-1 : ℚ) ^ 2) ∧
    (({ alpha := 1/2, name := "w" } :
        EinsteinFinalTorsional).get_metric (1/1000000) 4 1 1 1
      = ({ alpha := 1/2, name := "w" } :
        EinsteinFinalTorsional).get_metric (1/1000000) 4 1 (-1) 1) :=
  ⟨by norm_num, by norm_num, by norm_num,
    C9_depends_only_on_rs { alpha := 1/2, name := "w" } (1/1000000) 4 1 1 1 1 (-1) 1
      (by norm_num) (by norm_num) (by norm_num)⟩

/-- Counterexample to C4 as stated: with `r = [2]` and the
broadcast-compatible parameter array `M_param = [1, 2, 3]`, the call
succeeds but the first returned array has length 3, not `r`'s length 1
(the first two outputs take the broadcast shape, not `r`'s shape). -/
theorem C4_counterexample :
    ({ alpha := 0, name := "w" } :
        EinsteinFinalTorsional).get_metricT 1 [2] [1, 2, 3] [1] [1]
      = some ([0, 1, 2], [1, 0, -1], [4], [0]) ∧
    ([0, 1, 2] : List ℚ).length ≠ ([2] : List ℚ).length := by
  constructor
  · simp [EinsteinFinalTorsional.get_metricT, ebin, bcast]
    norm_num
  · simp

/-- C4 as amended: on every successful call the third and fourth outputs
have `r`'s shape, and when each parameter is a scalar (length 1) or an
array of `r`'s shape, the first and second outputs have `r`'s shape as
well (in general those two take the broadcast shape of `r` and the
parameters). -/
theorem C4_amended_output_shapes (self : EinsteinFinalTorsional)
    (EPSILON : ℚ) (r M_param C_param G_param : List ℚ)
    (out : List ℚ × List ℚ × List ℚ × List ℚ)
    (h : self.get_metricT EPSILON r M_param C_param G_param = some out) :
    out.2.2.1.length = r.length ∧ out.2.2.2.length = r.length ∧
    ((M_param.length = 1 ∨ M_param.length = r.length) →
     (C_param.length = 1 ∨ C_param.length = r.length) →
     (G_param.length = 1 ∨ G_param.length = r.length) →
     out.1.length = r.length ∧ out.2.1.length = r.length) := by
  obtain ⟨twoGM, rs, x, h1, h2, h3, hout⟩ := get_metricT_inv self EPSILON r
    M_param C_param G_param out h
  subst hout
  refine ⟨by simp, by simp, ?_⟩
  intro hM hC hG
  have e1 := ebin_length _ _ _ _ h1
  have e2 := ebin_length _ _ _ _ h2
  have e3 := ebin_length _ _ _ _ h3
  simp only [List.length_map] at e1 e2 ⊢
  have hx : x.length = r.length := by
    rcases e1 with ⟨u1, v1⟩ | ⟨u1, v1⟩ | ⟨u1, v1⟩ <;>
      rcases e2 with ⟨u2, v2⟩ | ⟨u2, v2⟩ | ⟨u2, v2⟩ <;>
      rcases e3 with ⟨u3, v3⟩ | ⟨u3, v3⟩ | ⟨u3, v3⟩ <;>
      rcases hM with hM | hM <;> rcases hC with hC | hC <;>
      rcases hG with hG | hG <;> omega
  exact ⟨hx, hx⟩

/-- Witness for C4 as amended, at scalar parameters `M = C = G = 1`,
`r = [2]`, `alpha = 0`, `EPSILON = 1`. -/
theorem C4_amended_output_shapes_witness :
    ({ alpha := 0, name := "w" } :
        EinsteinFinalTorsional).get_metricT 1 [2] [1] [1] [1]
      = some ([0], [1], [4], [0]) ∧
    ([4] : List ℚ).length = ([2] : List ℚ).length ∧
    ([0] : List ℚ).length = ([2] : List ℚ).length ∧
    ([0] : List ℚ).length = ([2] : List ℚ).length ∧
    ([1] : List ℚ).length = ([2] : List ℚ).length := by
  have h : ({ alpha := 0, name := "w" } :
      EinsteinFinalTorsional).get_metricT 1 [2] [1] [1] [1]
        = some ([0], [1], [4], [0]) := by
    simp [EinsteinFinalTorsional.get_metricT, ebin, bcast]
    norm_num
  have hs := C4_amended_output_shapes { alpha := 0, name := "w" } 1 [2] [1] [1] [1]
    ([0], [1], [4], [0]) h
  have hc := hs.2.2 (Or.inl rfl) (Or.inl rfl) (Or.inl rfl)
  exact ⟨h, hs.1, hs.2.1, hc.1, hc.2⟩

/-- C7: the unit traps nothing: under the backend's IEEE-extended
semantics `get_metric` is a total function, and at `r = 0` (with every
input finite) the divisions are performed and the time-time output is a
non-finite value (infinity or NaN) rather than a raised error. -/
theorem C7_r_zero_nonfinite (a e M C G : ℚ) :
    ((get_metricE (ExtF.fin a) (ExtF.fin e) (ExtF.fin 0) (ExtF.fin M)
        (ExtF.fin C) (ExtF.fin G)).1).isFinite = false := by
  simp only [get_metricE]
  exact m_of_nonfinite a _ (div_fin_zero_not_finite _)

/-- C10: the third and fourth outputs depend only on `r`: two successful
calls sharing `r` but with arbitrary different `alpha`, `EPSILON` and
parameters return identical third and fourth components. -/
theorem C10_last_two_depend_only_on_r (self1 self2 : EinsteinFinalTorsional)
    (E1 E2 : ℚ) (r Ma Ca Ga Mb Cb Gb : List ℚ)
    (out1 out2 : List ℚ × List ℚ × List ℚ × List ℚ)
    (h1 : self1.get_metricT E1 r Ma Ca Ga = some out1)
    (h2 : self2.get_metricT E2 r Mb Cb Gb = some out2) :
    out1.2.2.1 = out2.2.2.1 ∧ out1.2.2.2 = out2.2.2.2 := by
  obtain ⟨_, _, _, _, _, _, e1⟩ := get_metricT_inv self1 E1 r Ma Ca Ga out1 h1
  obtain ⟨_, _, _, _, _, _, e2⟩ := get_metricT_inv self2 E2 r Mb Cb Gb out2 h2
  rw [e1, e2]
  exact ⟨rfl, rfl⟩

/-- Witness for C10: two calls sharing `r = [2]` with different `alpha`,
`EPSILON` and parameters agree on the last two outputs. -/
theorem C10_last_two_depend_only_on_r_witness :
    ({ alpha := 0, name := "w" } :
        EinsteinFinalTorsional).get_metricT 1 [2] [1] [1] [1]
      = some ([0], [1], [4], [0]) ∧
    ({ alpha := 1, name := "x" } :
        EinsteinFinalTorsional).get_metricT 2 [2] [3] [1] [1]
      = some ([-79], [1/81], [4], [0]) ∧
    (([4] : List ℚ) = [4] ∧ ([0] : List ℚ) = [0]) := by
  have h1 : ({ alpha := 0, name := "w" } :
      EinsteinFinalTorsional).get_metricT 1 [2] [1] [1] [1]
        = some ([0], [1], [4], [0]) := by
    simp [EinsteinFinalTorsional.get_metricT, ebin, bcast]
    norm_num
  have h2 : ({ alpha := 1, name := "x" } :
      EinsteinFinalTorsional).get_metricT 2 [2] [3] [1] [1]
        = some ([-79], [1/81], [4], [0]) := by
    simp [EinsteinFinalTorsional.get_metricT, ebin, bcast]
    norm_num
  exact ⟨h1, h2,
    C10_last_two_depend_only_on_r { alpha := 0, name := "w" }
      { alpha := 1, name := "x" } 1 2 [2] [1] [1] [1] [3] [1] [1]
      ([0], [1], [4], [0]) ([-79], [1/81], [4], [0]) h1 h2⟩
